import Mathlib

/-!
Verification of the Stately state container: store (`createStore.ts`),
middleware composition (`middleware/index.ts`) and the history recorder
(`devtools.ts`), shallowly embedded in Lean.

JavaScript objects are modelled as ordered association lists from string
keys to `SVal` values; object spread `\x7b...a, ...b\x7d` is `shallowMerge`.
The store's mutable closure (current state, listener set, DevTools
instance, ambient clock) is the record `W`; a listener is identified by a
natural number and "invoking" it appends an entry to a notification log,
which is the observable effect of `listeners.forEach(...)`.
-/

namespace Stately

/-- A JavaScript value as stored in state: primitives, nested objects
(ordered key/value lists) and arrays. -/
inductive SVal where
  | str : String → SVal
  | num : Int → SVal
  | boolean : Bool → SVal
  | null : SVal
  | obj : List (String × SVal) → SVal
  | arr : List SVal → SVal

/-- `State` from `types.ts`: a record with string keys (a JS object,
modelled as an ordered association list). -/
abbrev State := List (String × SVal)

/-- First-match key lookup in a JS object. -/
def slookup : State → String → Option SVal
  | [], _ => none
  | (k, v) :: rest, key => if k = key then some v else slookup rest key

/-- JS object spread `\x7b...a, ...b\x7d`: keys of `a` in their original order
with values overridden by `b` where present, followed by the keys of `b`
not present in `a`, in `b`'s order. -/
def shallowMerge (a b : State) : State :=
  a.map (fun p => (p.1, (slookup b p.1).getD p.2)) ++
    b.filter (fun p => (slookup a p.1).isNone)

/-- `Action` from `types.ts`. -/
structure Action where
  type : String
  payload : Option SVal := none
  timestamp : Option Nat := none

/-- The argument of `setState`: a partial-state object, a function from
state to a partial state, or — since JavaScript is untyped — any other
value; `num` stands for a number passed where an object or function was
expected (a non-callable, non-mapping updater). -/
inductive Updater where
  | fn : (State → State) → Updater
  | obj : State → Updater
  | num : Int → Updater

/-- `typeof updater === 'function' ? updater(state) : updater` — the value
`nextState` computed by `setState`. -/
def Updater.resolve : Updater → State → SVal
  | .fn f, s => .obj (f s)
  | .obj p, _ => .obj p
  | .num n, _ => .num n

/-- The own enumerable properties contributed by a value under object
spread: an object contributes its entries, a number contributes none. -/
def spreadProps : SVal → State
  | .obj p => p
  | _ => []

/-- True for the two updater forms the public contract admits. -/
def Updater.isProper : Updater → Bool
  | .fn _ => true
  | .obj _ => true
  | .num _ => false

/-- The unsubscribe callback returned by `DevTools.subscribe`: either the
no-op `() => \x7b\x7d` or a closure deleting a specific listener. -/
inductive Unsub where
  | noop : Unsub
  | remove : Nat → Unsub

/-- The `DevTools` class from `devtools.ts`: bounded state/action history,
enabled flag and its own listener set.  Listeners are identifiers; the
`notifications` log records every listener invocation
`listener(\x7btype, state, action\x7d)` in order. -/
structure DevTools where
  enabled : Bool
  stateHistory : List State
  actionHistory : List Action
  maxHistorySize : Nat
  listeners : List Nat
  notifications : List (Nat × String × State × Option Action)

/-- The `DevTools` constructor:
`enabled = options.enabled ?? process.env.NODE_ENV === 'development'`. -/
def mkDevTools (enabledOpt : Option Bool) (envIsDev : Bool) : DevTools :=
  { enabled := enabledOpt.getD envIsDev
    stateHistory := []
    actionHistory := []
    maxHistorySize := 100
    listeners := []
    notifications := [] }

/-- `notifyListeners`: invoke every registered DevTools listener with the
change record. -/
def DevTools.notifyListeners (dt : DevTools) (t : String) (state : State)
    (action : Option Action) : DevTools :=
  { dt with notifications :=
      dt.notifications ++ dt.listeners.map (fun id => (id, t, state, action)) }

/-- `DevTools.record`: no-op when disabled; otherwise push the state and
action, shift both once when the state history exceeds the bound, then
notify the DevTools listeners with `STATE_CHANGED`. -/
def DevTools.record (dt : DevTools) (action : Action) (state : State) : DevTools :=
  if dt.enabled = false then dt
  else
    let sh := dt.stateHistory ++ [state]
    let ah := dt.actionHistory ++ [action]
    let sh2 := if dt.maxHistorySize < sh.length then sh.tail else sh
    let ah2 := if dt.maxHistorySize < sh.length then ah.tail else ah
    DevTools.notifyListeners
      { dt with stateHistory := sh2, actionHistory := ah2 }
      "STATE_CHANGED" state (some action)

/-- `DevTools.subscribe`: when disabled, return the no-op unsubscribe
without registering; otherwise add the listener and return a closure
removing it. -/
def DevTools.subscribe (dt : DevTools) (id : Nat) : DevTools × Unsub :=
  if dt.enabled = false then (dt, .noop)
  else if id ∈ dt.listeners then (dt, .remove id)
  else ({ dt with listeners := dt.listeners ++ [id] }, .remove id)

/-- `getStateHistory` returns a copy of the state history (a pure value
here). -/
def DevTools.getStateHistory (dt : DevTools) : List State :=
  dt.stateHistory

/-- `getActionHistory` returns a copy of the action history. -/
def DevTools.getActionHistory (dt : DevTools) : List Action :=
  dt.actionHistory

/-- `getStateAt(index)`: `null` when `index < 0 || index >= length`,
otherwise `stateHistory[length - 1 - index]`. -/
def DevTools.getStateAt (dt : DevTools) (index : Int) : Option State :=
  if index < 0 ∨ (dt.stateHistory.length : Int) ≤ index then none
  else dt.stateHistory.get? (dt.stateHistory.length - 1 - index.toNat)

/-- `getActionAt(index)`: same indexing over the action history. -/
def DevTools.getActionAt (dt : DevTools) (index : Int) : Option Action :=
  if index < 0 ∨ (dt.actionHistory.length : Int) ≤ index then none
  else dt.actionHistory.get? (dt.actionHistory.length - 1 - index.toNat)

/-- `clearHistory`: empty both sequences. -/
def DevTools.clearHistory (dt : DevTools) : DevTools :=
  { dt with stateHistory := [], actionHistory := [] }

/-- The `while (this.stateHistory.length > size)` loop of
`setMaxHistorySize`: shift both sequences until the state history fits.
(`shift` on an exhausted action history is a no-op, as in JS.) -/
def evictFront (size : Nat) : List State → List Action → List State × List Action
  | [], ah => ([], ah)
  | s :: sh, ah =>
      if size < (s :: sh).length then evictFront size sh ah.tail
      else (s :: sh, ah)

/-- `setMaxHistorySize(size)`: update the bound, then evict from the front
until the histories fit. -/
def DevTools.setMaxHistorySize (dt : DevTools) (size : Nat) : DevTools :=
  let p := evictFront size dt.stateHistory dt.actionHistory
  { dt with maxHistorySize := size, stateHistory := p.1, actionHistory := p.2 }

/-- `setEnabled(enabled)`. -/
def DevTools.setEnabled (dt : DevTools) (b : Bool) : DevTools :=
  { dt with enabled := b }

/-- The store's closure state: current state value, store listener ids and
their notification log, the DevTools instance, the ambient clock
(`Date.now()` reads `now`) and an invocation log written by the
instrumented middleware handlers of `HSpec`. -/
structure W where
  state : State
  listeners : List Nat
  notifications : List (Nat × State × Action)
  dt : DevTools
  now : Nat
  mwLog : List (Nat × String)

/-- `listeners.forEach(listener => listener(state, action))` on the store:
append one notification per registered listener, in order. -/
def notifyStore (w : W) (a : Action) : W :=
  { w with notifications :=
      w.notifications ++ w.listeners.map (fun id => (id, w.state, a)) }

namespace Store

/-- `getState` of `createStore.ts`. -/
def getState (w : W) : State := w.state

/-- `setState` of `createStore.ts`: resolve the updater, shallow-merge
into the current state, synthesize the `SET_STATE` action with a fresh
timestamp, record it in DevTools, then notify the store listeners. -/
def setState (u : Updater) (w : W) : W :=
  let nextState := u.resolve w.state
  let st := shallowMerge w.state (spreadProps nextState)
  let a : Action := { type := "SET_STATE", payload := some nextState, timestamp := some w.now }
  notifyStore { w with state := st, dt := w.dt.record a st } a

/-- `subscribe` of `createStore.ts`: `listeners.add(listener)` (a `Set`,
so adding an existing listener is a no-op). -/
def subscribe (id : Nat) (w : W) : W :=
  if id ∈ w.listeners then w else { w with listeners := w.listeners ++ [id] }

/-- The unsubscribe closure: `listeners.delete(listener)`. -/
def unsubscribe (id : Nat) (w : W) : W :=
  { w with listeners := w.listeners.filter (fun j => j ≠ id) }

/-- `dispatch` of `createStore.ts`: set `action.timestamp = Date.now()`,
record `(action, state)` in DevTools, notify every store listener with
`(state, action)`.  The state value is not touched. -/
def dispatch (a : Action) (w : W) : W :=
  let a2 : Action := { a with timestamp := some w.now }
  notifyStore { w with dt := w.dt.record a2 w.state } a2

end Store

/-- The store record returned by `createStore`. -/
structure StoreFns where
  getState : W → State
  setState : Updater → W → W
  subscribe : Nat → W → W
  dispatch : Action → W → W

/-- The middleware type of `middleware/index.ts`:
`(store, next) => (action) => void`. -/
def Middleware := StoreFns → (Action → W → W) → (Action → W → W)

/-- `applyMiddleware`: fold the middleware list right to left over the
store's raw dispatch (`reduceRight`), each step wrapping the accumulated
`next`; the result replaces `dispatch`, all other fields pass through. -/
def applyMiddleware (middlewares : List Middleware) (store : StoreFns) : StoreFns :=
  let dispatch := middlewares.foldr
    (fun middleware next => fun action =>
      let nextHandler := middleware store next
      nextHandler action)
    store.dispatch
  { store with dispatch := dispatch }

/-- The store built by `createStore` before any middleware wrapping. -/
def baseStore : StoreFns :=
  { getState := Store.getState
    setState := Store.setState
    subscribe := Store.subscribe
    dispatch := Store.dispatch }

/-- `createStore`: wrap dispatch through `applyMiddleware` exactly when
the middleware option is non-empty. -/
def createStore (middleware : List Middleware) : StoreFns :=
  if middleware.length ≠ 0 then applyMiddleware middleware baseStore
  else baseStore

/-- An instrumented middleware handler: when invoked it logs its identity
and the type of the action it received, then either forwards a possibly
transformed action to `next` or halts the chain.  This is the class of
handlers the ordering and halting claims quantify over. -/
structure HSpec where
  id : Nat
  proceed : Bool
  transform : Action → Action

/-- Interpret an `HSpec` as a source-level middleware. -/
def HSpec.toMw (h : HSpec) : Middleware :=
  fun _ next => fun a w =>
    let w1 := { w with mwLog := w.mwLog ++ [(h.id, a.type)] }
    if h.proceed then next (h.transform a) w1 else w1

/-- Run the handlers of a chain left to right: thread the action through
each transform and accumulate each handler's log entry. -/
def chain : List HSpec → Action → W → Action × W
  | [], a, w => (a, w)
  | h :: t, a, w =>
      chain t (h.transform a) { w with mwLog := w.mwLog ++ [(h.id, a.type)] }

/-- The log entries a fully-forwarding chain writes, in invocation
order. -/
def callOrder : List HSpec → Action → List (Nat × String)
  | [], _ => []
  | h :: t, a => (h.id, a.type) :: callOrder t (h.transform a)

/-- One public operation on the history recorder. -/
inductive DTOp where
  | record : Action → State → DTOp
  | clearHistory : DTOp
  | setMaxHistorySize : Nat → DTOp
  | setEnabled : Bool → DTOp
  | subscribe : Nat → DTOp

/-- Apply one recorder operation. -/
def DTOp.apply : DTOp → DevTools → DevTools
  | .record a s, dt => dt.record a s
  | .clearHistory, dt => dt.clearHistory
  | .setMaxHistorySize n, dt => dt.setMaxHistorySize n
  | .setEnabled b, dt => dt.setEnabled b
  | .subscribe id, dt => (dt.subscribe id).1

/-- Run a sequence of recorder operations left to right. -/
def runOps (ops : List DTOp) (dt : DevTools) : DevTools :=
  ops.foldl (fun d o => o.apply d) dt

/-- The unbounded ghost recorder: everything ever recorded (and not yet
cleared), with no size bound.  Used to state FIFO eviction: the real
histories are always a common suffix of the ghost histories. -/
structure Ghost where
  enabled : Bool
  states : List State
  actions : List Action

/-- Ghost semantics of one recorder operation: append on an enabled
record, reset on clear, ignore the bound. -/
def DTOp.ghostApply : DTOp → Ghost → Ghost
  | .record a s, g =>
      if g.enabled then
        { g with states := g.states ++ [s], actions := g.actions ++ [a] }
      else g
  | .clearHistory, g => { g with states := [], actions := [] }
  | .setMaxHistorySize _, g => g
  | .setEnabled b, g => { g with enabled := b }
  | .subscribe _, g => g

/-- Run the ghost recorder over an operation sequence. -/
def runGhost (ops : List DTOp) (g : Ghost) : Ghost :=
  ops.foldl (fun g o => o.ghostApply g) g

/-- The ghost recorder matching a freshly constructed `DevTools`. -/
def ghostInit (enabledOpt : Option Bool) (envIsDev : Bool) : Ghost :=
  { enabled := (mkDevTools enabledOpt envIsDev).enabled, states := [], actions := [] }

/-- Number of notifications the recorder has delivered to listener
`id`. -/
def notifCount (dt : DevTools) (id : Nat) : Nat :=
  dt.notifications.countP (fun n => n.1 = id)

/-- Apply a sequence of `setState` calls to the store. -/
def applyUpdates (us : List Updater) (w : W) : W :=
  us.foldl (fun w u => Store.setState u w) w

/-- The spec's left-to-right shallow-merge fold of the initial state with
the partial updates, each function updater applied to the state built so
far. -/
def specFold (init : State) (us : List Updater) : State :=
  us.foldl (fun s u => shallowMerge s (spreadProps (u.resolve s))) init

/-- A concrete store world: state `\x7bcount: 0\x7d`, one registered listener,
DevTools enabled, clock at 7. -/
def w0 : W :=
  { state := [("count", SVal.num 0)]
    listeners := [0]
    notifications := []
    dt := mkDevTools (some true) false
    now := 7
    mwLog := [] }

/-- An action dispatched with a timestamp already set. -/
def aPre : Action := { type := "X", payload := none, timestamp := some 5 }

/-- An action with an invalid (empty) type. -/
def aEmpty : Action := { type := "", payload := none, timestamp := none }

/-- A concrete recorder with two recorded entries (most recent last). -/
def dt8 : DevTools :=
  { enabled := true
    stateHistory := [[("count", SVal.num 1)], [("count", SVal.num 2)]]
    actionHistory := [{ type := "A" }, { type := "B" }]
    maxHistorySize := 100
    listeners := []
    notifications := [] }

/-- A concrete disabled recorder holding one pre-existing history
entry. -/
def dt9 : DevTools :=
  { enabled := false
    stateHistory := [[("count", SVal.num 1)]]
    actionHistory := [{ type := "A" }]
    maxHistorySize := 100
    listeners := []
    notifications := [] }

/-- A concrete pair of proper updaters. -/
def us3 : List Updater :=
  [Updater.obj [("count", SVal.num 1)], Updater.obj [("count", SVal.num 2), ("flag", SVal.boolean true)]]

/-- An action dispatched with no timestamp. -/
def aX2 : Action := { type := "X", payload := none, timestamp := none }

/-- A forwarding handler with identity transform. -/
def hsA : HSpec := { id := 0, proceed := true, transform := fun a => a }

/-- A second forwarding handler. -/
def hsB : HSpec := { id := 1, proceed := true, transform := fun a => a }

/-- A handler that never calls `next`. -/
def hsHalt : HSpec := { id := 2, proceed := false, transform := fun a => a }

/-- A concrete recorder operation sequence: re-enable, then record. -/
def ops9 : List DTOp := [DTOp.setEnabled true, DTOp.record aX2 []]

/-- The coupling invariant between a recorder and its unbounded ghost:
flags agree, the ghost sequences have equal length, the real state
history fits the bound, and the real histories are the drop of a common
prefix length from the ghost sequences (FIFO: only the oldest entries are
missing, in lock-step). -/
def DTInv (dt : DevTools) (g : Ghost) : Prop :=
  dt.enabled = g.enabled
  ∧ g.states.length = g.actions.length
  ∧ dt.stateHistory.length ≤ dt.maxHistorySize
  ∧ ∃ k, k ≤ g.states.length
      ∧ dt.stateHistory = g.states.drop k
      ∧ dt.actionHistory = g.actions.drop k

/-! ### Shallow-merge lemmas -/

theorem slookup_append (xs ys : State) (k : String) :
    slookup (xs ++ ys) k
      = if (slookup xs k).isSome then slookup xs k else slookup ys k := by
  induction xs with
  | nil => simp [slookup]
  | cons p rest ih =>
      obtain ⟨k1, v1⟩ := p
      by_cases h : k1 = k
      · simp [slookup, h]
      · simp [slookup, h, ih]

theorem slookup_map_override (a b : State) (k : String) :
    slookup (a.map (fun p => (p.1, (slookup b p.1).getD p.2))) k
      = (slookup a k).map (fun v => (slookup b k).getD v) := by
  induction a with
  | nil => simp [slookup]
  | cons p rest ih =>
      obtain ⟨k1, v1⟩ := p
      by_cases h : k1 = k
      · subst h; simp [slookup]
      · simp [slookup, h, ih]

theorem slookup_filter_isNone (a b : State) (k : String) :
    slookup (b.filter (fun p => (slookup a p.1).isNone)) k
      = if (slookup a k).isSome then none else slookup b k := by
  induction b with
  | nil => simp [slookup]
  | cons p rest ih =>
      obtain ⟨k1, v1⟩ := p
      cases ha : slookup a k1 with
      | none =>
          by_cases h : k1 = k
          · subst h; simp [List.filter_cons, ha, slookup]
          · simp [List.filter_cons, ha, slookup, h, ih]
      | some v =>
          by_cases h : k1 = k
          · subst h; simp [List.filter_cons, ha, slookup, ih]
          · simp [List.filter_cons, ha, slookup, h, ih]

/-- Lookup in a shallow merge: the update's binding wins wherever it
exists, whatever the shapes of the two values. -/
theorem slookup_shallowMerge (a b : State) (k : String) :
    slookup (shallowMerge a b) k
      = if (slookup b k).isSome then slookup b k else slookup a k := by
  unfold shallowMerge
  rw [slookup_append, slookup_map_override, slookup_filter_isNone]
  cases ha : slookup a k with
  | none => cases hb : slookup b k <;> simp
  | some v => cases hb : slookup b k <;> simp

theorem slookup_merge_right (a b : State) (k : String)
    (h : (slookup b k).isSome = true) :
    slookup (shallowMerge a b) k = slookup b k := by
  simp [slookup_shallowMerge, h]

theorem slookup_merge_left (a b : State) (k : String)
    (h : slookup b k = none) :
    slookup (shallowMerge a b) k = slookup a k := by
  simp [slookup_shallowMerge, h]

/-- Merging with an empty partial update leaves the state unchanged. -/
theorem shallowMerge_nil (s : State) : shallowMerge s [] = s := by
  induction s with
  | nil => rfl
  | cons p rest ih =>
      obtain ⟨k, v⟩ := p
      simp only [shallowMerge, slookup, List.filter_nil, List.append_nil,
        List.map_cons, Option.getD_none] at ih ⊢
      exact congrArg _ ih

/-- The state after a sequence of `setState` calls is the left-to-right
shallow-merge fold of the initial state with the resolved partial
updates. -/
theorem applyUpdates_state (us : List Updater) (w : W) :
    (applyUpdates us w).state = specFold w.state us := by
  induction us generalizing w with
  | nil => rfl
  | cons u rest ih =>
      show (applyUpdates rest (Store.setState u w)).state = _
      rw [ih]
      rfl

/-- Claim C3: after any sequence of `setState` calls (partial-state
mappings or updater functions), `getState()` equals the left-to-right
shallow-merge fold of the initial state with the partial updates;
overlapping keys take the update's value wholesale (nested objects are
replaced, never merged recursively). -/
theorem setState_is_shallow_merge_fold (us : List Updater) (w : W)
    (hus : us.all Updater.isProper = true) :
    (createStore []).getState (applyUpdates us w)
        = specFold ((createStore []).getState w) us
    ∧ (∀ a b k, (slookup b k).isSome = true →
        slookup (shallowMerge a b) k = slookup b k)
    ∧ (∀ a b k, slookup b k = none →
        slookup (shallowMerge a b) k = slookup a k)
    ∧ slookup (shallowMerge [("u", SVal.obj [("x", SVal.num 1)])]
          [("u", SVal.obj [("y", SVal.num 2)])]) "u"
        = some (SVal.obj [("y", SVal.num 2)]) := by
  refine ⟨?_, slookup_merge_right, slookup_merge_left, rfl⟩
  simpa [createStore, baseStore, Store.getState] using applyUpdates_state us w

theorem setState_is_shallow_merge_fold_witness :
    (us3.all Updater.isProper = true)
    ∧ ((createStore []).getState (applyUpdates us3 w0)
          = specFold ((createStore []).getState w0) us3
        ∧ (∀ a b k, (slookup b k).isSome = true →
            slookup (shallowMerge a b) k = slookup b k)
        ∧ (∀ a b k, slookup b k = none →
            slookup (shallowMerge a b) k = slookup a k)
        ∧ slookup (shallowMerge [("u", SVal.obj [("x", SVal.num 1)])]
              [("u", SVal.obj [("y", SVal.num 2)])]) "u"
            = some (SVal.obj [("y", SVal.num 2)])) :=
  ⟨rfl, setState_is_shallow_merge_fold us3 w0 rfl⟩

/-! ### Middleware composition lemmas -/

theorem applyMiddleware_dispatch_cons (m : Middleware) (ms : List Middleware)
    (st : StoreFns) :
    (applyMiddleware (m :: ms) st).dispatch
      = fun a => (m st ((applyMiddleware ms st).dispatch)) a := rfl

/-- A chain in which every handler forwards ends in the raw dispatch,
applied to the fully transformed action and the world holding every
handler's log entry, accumulated left to right. -/
theorem composed_dispatch_all_proceed (hs : List HSpec) (a : Action) (w : W)
    (hall : hs.all (fun h => h.proceed) = true) :
    (applyMiddleware (hs.map HSpec.toMw) baseStore).dispatch a w
      = Store.dispatch (chain hs a w).1 (chain hs a w).2 := by
  induction hs generalizing a w with
  | nil => rfl
  | cons h t ih =>
      rw [List.all_cons, Bool.and_eq_true] at hall
      rw [List.map_cons, applyMiddleware_dispatch_cons]
      show HSpec.toMw h baseStore _ a w = _
      simp only [HSpec.toMw, hall.1, if_true, chain]
      exact ih _ _ hall.2

theorem chain_snd (hs : List HSpec) (a : Action) (w : W) :
    (chain hs a w).2 = { w with mwLog := w.mwLog ++ callOrder hs a } := by
  induction hs generalizing a w with
  | nil => simp [chain, callOrder]
  | cons h t ih =>
      simp only [chain, callOrder, ih, List.append_assoc, List.singleton_append]

theorem callOrder_map_fst (hs : List HSpec) (a : Action) :
    (callOrder hs a).map Prod.fst = hs.map HSpec.id := by
  induction hs generalizing a with
  | nil => rfl
  | cons h t ih => simp [callOrder, ih]

/-- Claim C1: for handlers registered in order, the composed dispatch
built by `applyMiddleware` runs them in registration order and finishes
with the raw store dispatch — the right-to-left fold notwithstanding.
The invocation log after dispatch lists exactly the handler identities in
registration order, and the final step is `Store.dispatch` on the world
those handlers produced. -/
theorem middleware_call_order (hs : List HSpec) (a : Action) (w : W)
    (hall : hs.all (fun h => h.proceed) = true) :
    (createStore (hs.map HSpec.toMw)).dispatch a w
      = Store.dispatch (chain hs a w).1 (chain hs a w).2
    ∧ (chain hs a w).2 = { w with mwLog := w.mwLog ++ callOrder hs a }
    ∧ (callOrder hs a).map Prod.fst = hs.map HSpec.id := by
  refine ⟨?_, chain_snd hs a w, callOrder_map_fst hs a⟩
  cases hs with
  | nil => rfl
  | cons h t =>
      have hne : ((h :: t).map HSpec.toMw).length ≠ 0 := by simp
      rw [createStore, if_pos hne]
      exact composed_dispatch_all_proceed _ a w hall

theorem middleware_call_order_witness :
    ([hsA, hsB].all (fun h => h.proceed) = true)
    ∧ ((createStore ([hsA, hsB].map HSpec.toMw)).dispatch aX2 w0
          = Store.dispatch (chain [hsA, hsB] aX2 w0).1 (chain [hsA, hsB] aX2 w0).2
        ∧ (chain [hsA, hsB] aX2 w0).2
          = { w0 with mwLog := w0.mwLog ++ callOrder [hsA, hsB] aX2 }
        ∧ (callOrder [hsA, hsB] aX2).map Prod.fst = [hsA, hsB].map HSpec.id) :=
  ⟨rfl, middleware_call_order [hsA, hsB] aX2 w0 rfl⟩

/-- Once a handler with `proceed = false` is reached, the composed
dispatch returns the world unchanged except for the log entries of the
handlers up to and including the halting one. -/
theorem composed_dispatch_halt (pre : List HSpec) (hh : HSpec) (post : List HSpec)
    (a : Action) (w : W)
    (hpre : pre.all (fun x => x.proceed) = true) (hstop : hh.proceed = false) :
    (applyMiddleware ((pre ++ hh :: post).map HSpec.toMw) baseStore).dispatch a w
      = { w with mwLog := w.mwLog ++ callOrder (pre ++ [hh]) a } := by
  induction pre generalizing a w with
  | nil =>
      rw [List.nil_append, List.map_cons, applyMiddleware_dispatch_cons]
      show HSpec.toMw hh baseStore _ a w = _
      simp [HSpec.toMw, hstop, callOrder]
  | cons p ps ih =>
      rw [List.all_cons, Bool.and_eq_true] at hpre
      rw [List.cons_append, List.map_cons, applyMiddleware_dispatch_cons]
      show HSpec.toMw p baseStore _ a w = _
      simp only [HSpec.toMw, hpre.1, if_true]
      rw [ih _ _ hpre.2]
      simp [callOrder, List.append_assoc]

/-- Claim C7: a handler that never calls `next` halts the chain: no later
handler runs, the raw dispatch never executes, no history entry is
recorded, and no store listener is notified — the only effect is the log
written by the handlers up to and including the halting one. -/
theorem middleware_halt_frame (pre : List HSpec) (hh : HSpec) (post : List HSpec)
    (a : Action) (w : W)
    (hpre : pre.all (fun x => x.proceed) = true) (hstop : hh.proceed = false) :
    (createStore ((pre ++ hh :: post).map HSpec.toMw)).dispatch a w
      = { w with mwLog := w.mwLog ++ callOrder (pre ++ [hh]) a }
    ∧ ((createStore ((pre ++ hh :: post).map HSpec.toMw)).dispatch a w).state = w.state
    ∧ ((createStore ((pre ++ hh :: post).map HSpec.toMw)).dispatch a w).dt = w.dt
    ∧ ((createStore ((pre ++ hh :: post).map HSpec.toMw)).dispatch a w).notifications
        = w.notifications
    ∧ (callOrder (pre ++ [hh]) a).map Prod.fst = (pre ++ [hh]).map HSpec.id := by
  have hne : (((pre ++ hh :: post)).map HSpec.toMw).length ≠ 0 := by simp
  have hmain :
      (createStore ((pre ++ hh :: post).map HSpec.toMw)).dispatch a w
        = { w with mwLog := w.mwLog ++ callOrder (pre ++ [hh]) a } := by
    rw [createStore, if_pos hne]
    exact composed_dispatch_halt pre hh post a w hpre hstop
  refine ⟨hmain, ?_, ?_, ?_, callOrder_map_fst _ a⟩ <;> rw [hmain]

theorem middleware_halt_frame_witness :
    ([hsA].all (fun x => x.proceed) = true)
    ∧ (hsHalt.proceed = false)
    ∧ ((createStore (([hsA] ++ hsHalt :: [hsB]).map HSpec.toMw)).dispatch aX2 w0
          = { w0 with mwLog := w0.mwLog ++ callOrder ([hsA] ++ [hsHalt]) aX2 }
        ∧ ((createStore (([hsA] ++ hsHalt :: [hsB]).map HSpec.toMw)).dispatch aX2 w0).state
            = w0.state
        ∧ ((createStore (([hsA] ++ hsHalt :: [hsB]).map HSpec.toMw)).dispatch aX2 w0).dt
            = w0.dt
        ∧ ((createStore (([hsA] ++ hsHalt :: [hsB]).map HSpec.toMw)).dispatch aX2 w0).notifications
            = w0.notifications
        ∧ (callOrder ([hsA] ++ [hsHalt]) aX2).map Prod.fst
            = ([hsA] ++ [hsHalt]).map HSpec.id) :=
  ⟨rfl, rfl, middleware_halt_frame [hsA] hsHalt [hsB] aX2 w0 rfl rfl⟩

/-- Claim C4: on a store with no middleware, `dispatch` never changes the
state: `getState()` returns the same value before and after any dispatch.
(`dispatch` only stamps the action, records it, and notifies.) -/
theorem dispatch_preserves_state (a : Action) (w : W) :
    (createStore []).getState ((createStore []).dispatch a w)
      = (createStore []).getState w := rfl

/-! ### Timestamp stamping (claim C5) and input validation (claim C6) -/

/-- Counterexample to claim C5: the action `aPre` is dispatched with
`timestamp = 5` already set, at clock time 7; the recorded and notified
action carries timestamp 7, not the pre-set 5 — `dispatch` overwrites an
existing timestamp instead of keeping it. -/
theorem dispatch_timestamp_overwritten_cx :
    ((createStore []).dispatch aPre w0).dt.actionHistory
        = [{ type := "X", payload := none, timestamp := some 7 }]
    ∧ ((createStore []).dispatch aPre w0).notifications
        = [(0, [("count", SVal.num 0)],
            { type := "X", payload := none, timestamp := some 7 })]
    ∧ aPre.timestamp = some 5
    ∧ (some 5 : Option Nat) ≠ some 7 := by
  refine ⟨rfl, rfl, rfl, by simp⟩

/-- Claim C5, corrected: `dispatch` stamps `action.timestamp` with the
current time unconditionally — a pre-set timestamp is replaced, so two
actions differing only in their timestamp dispatch identically, and the
action handed to the recorder is the freshly stamped one. -/
theorem dispatch_stamps_unconditionally (a1 a2 : Action) (w : W)
    (ht : a1.type = a2.type) (hp : a1.payload = a2.payload) :
    (createStore []).dispatch a1 w = (createStore []).dispatch a2 w
    ∧ ((createStore []).dispatch a1 w).dt
        = w.dt.record { a1 with timestamp := some w.now } w.state := by
  have hstamp : ({ a1 with timestamp := some w.now } : Action)
      = { a2 with timestamp := some w.now } := by
    cases a1; cases a2; simp_all
  constructor
  · show Store.dispatch a1 w = Store.dispatch a2 w
    simp only [Store.dispatch, hstamp]
  · rfl

theorem dispatch_stamps_unconditionally_witness :
    (aPre.type = aX2.type)
    ∧ (aPre.payload = aX2.payload)
    ∧ ((createStore []).dispatch aPre w0 = (createStore []).dispatch aX2 w0
        ∧ ((createStore []).dispatch aPre w0).dt
            = w0.dt.record { aPre with timestamp := some w0.now } w0.state) :=
  ⟨rfl, rfl, dispatch_stamps_unconditionally aPre aX2 w0 rfl rfl⟩

/-- Counterexample to claim C6: dispatching an action whose `type` is the
empty string is not surfaced as an error — it is processed exactly like a
valid action (recorded in history, listeners notified); and `setState`
with a non-callable, non-mapping updater (the number 42) raises nothing
either: the state keeps its bindings and a `SET_STATE` action is still
recorded. Both contract violations are silently accepted. -/
theorem contract_violation_swallowed_cx :
    ((createStore []).dispatch aEmpty w0).dt.actionHistory
        = [{ type := "", payload := none, timestamp := some 7 }]
    ∧ ((createStore []).dispatch aEmpty w0).notifications.length = 1
    ∧ (Store.setState (Updater.num 42) w0).state = w0.state
    ∧ (Store.setState (Updater.num 42) w0).dt.actionHistory
        = [{ type := "SET_STATE", payload := some (SVal.num 42), timestamp := some 7 }] := by
  refine ⟨rfl, rfl, rfl, rfl⟩

/-- Claim C6, corrected: neither entry point validates its input.
`dispatch` notifies every listener for any action whatever its `type`
(empty included); `setState` with a non-callable, non-mapping updater is
silently coerced — the object spread of a number contributes no
properties, so the state is unchanged — while a `SET_STATE` action
carrying the junk payload is still recorded and every listener is still
notified.  No error is surfaced in either case. -/
theorem no_validation_no_error (a : Action) (w : W) (n : Int) :
    ((createStore []).dispatch a w).notifications.length
        = w.notifications.length + w.listeners.length
    ∧ (Store.setState (Updater.num n) w).state = w.state
    ∧ (Store.setState (Updater.num n) w).notifications.length
        = w.notifications.length + w.listeners.length
    ∧ (Store.setState (Updater.num n) w).dt
        = w.dt.record
            { type := "SET_STATE", payload := some (SVal.num n),
              timestamp := some w.now } w.state := by
  have hm : shallowMerge w.state (spreadProps (Updater.resolve (Updater.num n) w.state))
      = w.state := shallowMerge_nil w.state
  refine ⟨?_, ?_, ?_, ?_⟩
  · show (Store.dispatch a w).notifications.length = _
    simp [Store.dispatch, notifyStore]
  · show shallowMerge w.state (spreadProps (Updater.resolve (Updater.num n) w.state)) = w.state
    exact hm
  · simp [Store.setState, notifyStore]
  · show (notifyStore _ _).dt = _
    simp only [notifyStore]
    show (W.dt { w with
        state := shallowMerge w.state (spreadProps (Updater.resolve (Updater.num n) w.state)),
        dt := w.dt.record _ (shallowMerge w.state (spreadProps (Updater.resolve (Updater.num n) w.state))) }) = _
    rw [hm]
    rfl

/-! ### History recorder lemmas -/

/-- Closed form of the eviction loop: it drops the same number of
entries, `stateHistory.length - size`, from the front of both
sequences. -/
theorem evictFront_eq (size : Nat) (sh : List State) (ah : List Action) :
    evictFront size sh ah
      = (sh.drop (sh.length - size), ah.drop (sh.length - size)) := by
  induction sh generalizing ah with
  | nil => simp [evictFront]
  | cons s sh ih =>
      by_cases h : size < (s :: sh).length
      · rw [evictFront, if_pos h, ih ah.tail]
        have hlen : (s :: sh).length - size = (sh.length - size) + 1 := by
          simp only [List.length_cons] at h ⊢
          omega
        rw [hlen]
        have hsh : (s :: sh).drop ((sh.length - size) + 1) = sh.drop (sh.length - size) := rfl
        have hah : ah.tail.drop (sh.length - size) = ah.drop ((sh.length - size) + 1) := by
          rw [← List.drop_one ah, List.drop_drop, Nat.add_comm]
        rw [hsh, hah]
      · rw [evictFront, if_neg h]
        have hz : (s :: sh).length - size = 0 := by
          simp only [List.length_cons] at h ⊢
          omega
        rw [hz]
        simp

/-- An enabled `record` call: push both entries, shift both once when the
state history exceeds the bound, notify the recorder listeners. -/
theorem record_eq_of_enabled (dt : DevTools) (a : Action) (s : State)
    (hen : dt.enabled = true) :
    dt.record a s =
      { dt with
        stateHistory :=
          if dt.maxHistorySize < (dt.stateHistory ++ [s]).length
          then (dt.stateHistory ++ [s]).tail else dt.stateHistory ++ [s]
        actionHistory :=
          if dt.maxHistorySize < (dt.stateHistory ++ [s]).length
          then (dt.actionHistory ++ [a]).tail else dt.actionHistory ++ [a]
        notifications := dt.notifications ++
          dt.listeners.map (fun id => (id, "STATE_CHANGED", s, some a)) } := by
  simp [DevTools.record, hen, DevTools.notifyListeners]

theorem DTInv_record (dt : DevTools) (g : Ghost) (a : Action) (s : State)
    (h : DTInv dt g) :
    DTInv (dt.record a s) ((DTOp.record a s).ghostApply g) := by
  obtain ⟨hen, hg, hmax, k, hk, hsh, hah⟩ := h
  by_cases he : dt.enabled = true
  · have hgen : g.enabled = true := hen ▸ he
    rw [record_eq_of_enabled dt a s he]
    simp only [DTOp.ghostApply, hgen, if_true]
    have hk2 : k ≤ g.actions.length := hg ▸ hk
    by_cases hc : dt.maxHistorySize < (dt.stateHistory ++ [s]).length
    · refine ⟨he, by simp [hg], ?_, k + 1, ?_, ?_, ?_⟩
      · show (if dt.maxHistorySize < (dt.stateHistory ++ [s]).length
            then (dt.stateHistory ++ [s]).tail
            else dt.stateHistory ++ [s]).length ≤ dt.maxHistorySize
        rw [if_pos hc]
        simp only [List.length_tail, List.length_append, List.length_singleton]
        omega
      · simp only [List.length_append, List.length_singleton]
        omega
      · show (if dt.maxHistorySize < (dt.stateHistory ++ [s]).length
            then (dt.stateHistory ++ [s]).tail
            else dt.stateHistory ++ [s]) = (g.states ++ [s]).drop (k + 1)
        rw [if_pos hc, hsh, ← List.drop_append_of_le_length hk, List.tail_drop]
      · show (if dt.maxHistorySize < (dt.stateHistory ++ [s]).length
            then (dt.actionHistory ++ [a]).tail
            else dt.actionHistory ++ [a]) = (g.actions ++ [a]).drop (k + 1)
        rw [if_pos hc, hah, ← List.drop_append_of_le_length hk2, List.tail_drop]
    · refine ⟨he, by simp [hg], ?_, k, ?_, ?_, ?_⟩
      · show (if dt.maxHistorySize < (dt.stateHistory ++ [s]).length
            then (dt.stateHistory ++ [s]).tail
            else dt.stateHistory ++ [s]).length ≤ dt.maxHistorySize
        rw [if_neg hc]
        simp only [List.length_append, List.length_singleton] at hc ⊢
        omega
      · simp only [List.length_append, List.length_singleton]
        omega
      · show (if dt.maxHistorySize < (dt.stateHistory ++ [s]).length
            then (dt.stateHistory ++ [s]).tail
            else dt.stateHistory ++ [s]) = (g.states ++ [s]).drop k
        rw [if_neg hc, hsh, List.drop_append_of_le_length hk]
      · show (if dt.maxHistorySize < (dt.stateHistory ++ [s]).length
            then (dt.actionHistory ++ [a]).tail
            else dt.actionHistory ++ [a]) = (g.actions ++ [a]).drop k
        rw [if_neg hc, hah, List.drop_append_of_le_length hk2]
  · have he2 : dt.enabled = false := by simpa using he
    have hgen : g.enabled = false := hen ▸ he2
    rw [DevTools.record, if_pos he2]
    simp only [DTOp.ghostApply, hgen]
    exact ⟨hen, hg, hmax, k, hk, hsh, hah⟩

theorem DTInv_clear (dt : DevTools) (g : Ghost) (h : DTInv dt g) :
    DTInv dt.clearHistory (DTOp.clearHistory.ghostApply g) := by
  obtain ⟨hen, hg, hmax, k, hk, hsh, hah⟩ := h
  exact ⟨hen, rfl, by simp [DevTools.clearHistory], 0, by simp, rfl, rfl⟩

theorem DTInv_setMax (dt : DevTools) (g : Ghost) (n : Nat) (h : DTInv dt g) :
    DTInv (dt.setMaxHistorySize n) ((DTOp.setMaxHistorySize n).ghostApply g) := by
  obtain ⟨hen, hg, hmax, k, hk, hsh, hah⟩ := h
  have hform := evictFront_eq n dt.stateHistory dt.actionHistory
  have hshlen : dt.stateHistory.length = g.states.length - k := by
    rw [hsh, List.length_drop]
  simp only [DTOp.ghostApply]
  refine ⟨hen, hg, ?_, k + (dt.stateHistory.length - n), ?_, ?_, ?_⟩
  · show (evictFront n dt.stateHistory dt.actionHistory).1.length ≤ n
    rw [hform]
    simp only [List.length_drop]
    omega
  · omega
  · show (evictFront n dt.stateHistory dt.actionHistory).1
        = g.states.drop (k + (dt.stateHistory.length - n))
    rw [hform]
    show dt.stateHistory.drop (dt.stateHistory.length - n)
        = g.states.drop (k + (dt.stateHistory.length - n))
    rw [hsh, List.drop_drop]
  · show (evictFront n dt.stateHistory dt.actionHistory).2
        = g.actions.drop (k + (dt.stateHistory.length - n))
    rw [hform]
    show dt.actionHistory.drop (dt.stateHistory.length - n)
        = g.actions.drop (k + (dt.stateHistory.length - n))
    rw [hah, hsh, List.drop_drop]

theorem DTInv_setEnabled (dt : DevTools) (g : Ghost) (b : Bool) (h : DTInv dt g) :
    DTInv (dt.setEnabled b) ((DTOp.setEnabled b).ghostApply g) := by
  obtain ⟨hen, hg, hmax, k, hk, hsh, hah⟩ := h
  exact ⟨rfl, hg, hmax, k, hk, hsh, hah⟩

theorem DTInv_subscribe (dt : DevTools) (g : Ghost) (id : Nat) (h : DTInv dt g) :
    DTInv ((dt.subscribe id).1) ((DTOp.subscribe id).ghostApply g) := by
  obtain ⟨hen, hg, hmax, k, hk, hsh, hah⟩ := h
  simp only [DevTools.subscribe, DTOp.ghostApply]
  by_cases he : dt.enabled = false
  · rw [if_pos he]
    exact ⟨hen, hg, hmax, k, hk, hsh, hah⟩
  · rw [if_neg he]
    by_cases hm : id ∈ dt.listeners
    · rw [if_pos hm]
      exact ⟨hen, hg, hmax, k, hk, hsh, hah⟩
    · rw [if_neg hm]
      exact ⟨hen, hg, hmax, k, hk, hsh, hah⟩

theorem DTInv_step (op : DTOp) (dt : DevTools) (g : Ghost) (h : DTInv dt g) :
    DTInv (op.apply dt) (op.ghostApply g) := by
  cases op with
  | record a s => exact DTInv_record dt g a s h
  | clearHistory => exact DTInv_clear dt g h
  | setMaxHistorySize n => exact DTInv_setMax dt g n h
  | setEnabled b => exact DTInv_setEnabled dt g b h
  | subscribe id => exact DTInv_subscribe dt g id h

theorem DTInv_runOps (ops : List DTOp) (dt : DevTools) (g : Ghost)
    (h : DTInv dt g) : DTInv (runOps ops dt) (runGhost ops g) := by
  induction ops generalizing dt g with
  | nil => exact h
  | cons op rest ih => exact ih _ _ (DTInv_step op dt g h)

theorem DTInv_init (enabledOpt : Option Bool) (envIsDev : Bool) :
    DTInv (mkDevTools enabledOpt envIsDev) (ghostInit enabledOpt envIsDev) :=
  ⟨rfl, rfl, by simp [mkDevTools], 0, by simp [ghostInit], rfl, rfl⟩

/-- Claim C2: at every point of any recorder operation sequence the two
histories have equal length, that length never exceeds the current
`maxHistorySize`, and the kept entries are a suffix of everything
recorded since the last clear, dropped from the oldest end by the same
amount in both sequences (lock-step FIFO eviction).  Quantifying over all
operation sequences covers every intermediate point, since each prefix is
itself a sequence. -/
theorem history_bounded_fifo (enabledOpt : Option Bool) (envIsDev : Bool)
    (ops : List DTOp) :
    (runOps ops (mkDevTools enabledOpt envIsDev)).stateHistory.length
      = (runOps ops (mkDevTools enabledOpt envIsDev)).actionHistory.length
    ∧ (runOps ops (mkDevTools enabledOpt envIsDev)).stateHistory.length
      ≤ (runOps ops (mkDevTools enabledOpt envIsDev)).maxHistorySize
    ∧ ∃ k, (runOps ops (mkDevTools enabledOpt envIsDev)).stateHistory
          = (runGhost ops (ghostInit enabledOpt envIsDev)).states.drop k
        ∧ (runOps ops (mkDevTools enabledOpt envIsDev)).actionHistory
          = (runGhost ops (ghostInit enabledOpt envIsDev)).actions.drop k := by
  obtain ⟨hen, hg, hmax, k, hk, hsh, hah⟩ :=
    DTInv_runOps ops _ _ (DTInv_init enabledOpt envIsDev)
  refine ⟨?_, hmax, k, hsh, hah⟩
  rw [hsh, hah, List.length_drop, List.length_drop, hg]

/-- Claim C8: `getStateAt(i)` and `getActionAt(i)` read position
`length - 1 - i` (index 0 is the most recent entry) and return the
`null` sentinel, never raising, for any `i < 0` or `i >= length`. -/
theorem getAt_indexing (dt : DevTools) (i : Int)
    (h0 : 0 ≤ i) (hs : i < (dt.stateHistory.length : Int))
    (ha : i < (dt.actionHistory.length : Int)) :
    ((dt.getStateAt i).isSome = true
      ∧ dt.getStateAt i
          = dt.stateHistory.get? (dt.stateHistory.length - 1 - i.toNat))
    ∧ ((dt.getActionAt i).isSome = true
      ∧ dt.getActionAt i
          = dt.actionHistory.get? (dt.actionHistory.length - 1 - i.toNat))
    ∧ (∀ j : Int, j < 0 ∨ (dt.stateHistory.length : Int) ≤ j →
        dt.getStateAt j = none)
    ∧ (∀ j : Int, j < 0 ∨ (dt.actionHistory.length : Int) ≤ j →
        dt.getActionAt j = none)
    ∧ dt.getStateAt 0 = dt.stateHistory.getLast?
    ∧ dt.getActionAt 0 = dt.actionHistory.getLast? := by
  have hslen : 0 < dt.stateHistory.length := by omega
  have halen : 0 < dt.actionHistory.length := by omega
  have hconds : ¬(i < 0 ∨ (dt.stateHistory.length : Int) ≤ i) := by omega
  have hconda : ¬(i < 0 ∨ (dt.actionHistory.length : Int) ≤ i) := by omega
  have hidxs : dt.stateHistory.length - 1 - i.toNat < dt.stateHistory.length := by
    omega
  have hidxa : dt.actionHistory.length - 1 - i.toNat < dt.actionHistory.length := by
    omega
  refine ⟨⟨?_, ?_⟩, ⟨?_, ?_⟩, ?_, ?_, ?_, ?_⟩
  · rw [DevTools.getStateAt, if_neg hconds, List.get?_eq_get hidxs]
    rfl
  · rw [DevTools.getStateAt, if_neg hconds]
  · rw [DevTools.getActionAt, if_neg hconda, List.get?_eq_get hidxa]
    rfl
  · rw [DevTools.getActionAt, if_neg hconda]
  · intro j hj
    rw [DevTools.getStateAt, if_pos hj]
  · intro j hj
    rw [DevTools.getActionAt, if_pos hj]
  · have hcond0 : ¬((0 : Int) < 0 ∨ (dt.stateHistory.length : Int) ≤ 0) := by omega
    rw [DevTools.getStateAt, if_neg hcond0, List.getLast?_eq_get?]
    simp
  · have hcond0 : ¬((0 : Int) < 0 ∨ (dt.actionHistory.length : Int) ≤ 0) := by omega
    rw [DevTools.getActionAt, if_neg hcond0, List.getLast?_eq_get?]
    simp

theorem getAt_indexing_witness :
    ((0 : Int) ≤ 1)
    ∧ ((1 : Int) < (dt8.stateHistory.length : Int))
    ∧ ((1 : Int) < (dt8.actionHistory.length : Int))
    ∧ (((dt8.getStateAt 1).isSome = true
        ∧ dt8.getStateAt 1
            = dt8.stateHistory.get? (dt8.stateHistory.length - 1 - Int.toNat 1))
      ∧ ((dt8.getActionAt 1).isSome = true
        ∧ dt8.getActionAt 1
            = dt8.actionHistory.get? (dt8.actionHistory.length - 1 - Int.toNat 1))
      ∧ (∀ j : Int, j < 0 ∨ (dt8.stateHistory.length : Int) ≤ j →
          dt8.getStateAt j = none)
      ∧ (∀ j : Int, j < 0 ∨ (dt8.actionHistory.length : Int) ≤ j →
          dt8.getActionAt j = none)
      ∧ dt8.getStateAt 0 = dt8.stateHistory.getLast?
      ∧ dt8.getActionAt 0 = dt8.actionHistory.getLast?) :=
  ⟨by decide, by decide, by decide,
    getAt_indexing dt8 1 (by decide) (by decide) (by decide)⟩

/-! ### Disabled-recorder lemmas (claim C9) -/

theorem notif_step (op : DTOp) (dt : DevTools) (id : Nat)
    (hop : ∀ j, op = DTOp.subscribe j → j ≠ id)
    (hid : id ∉ dt.listeners) :
    id ∉ (op.apply dt).listeners
    ∧ notifCount (op.apply dt) id = notifCount dt id := by
  cases op with
  | record a s =>
      by_cases he : dt.enabled = true
      · rw [DTOp.apply, record_eq_of_enabled dt a s he]
        refine ⟨hid, ?_⟩
        show notifCount
          { dt with
            stateHistory := _, actionHistory := _,
            notifications := dt.notifications ++
              dt.listeners.map (fun l => (l, "STATE_CHANGED", s, some a)) } id = _
        simp only [notifCount]
        rw [List.countP_append]
        have hz : (dt.listeners.map
            (fun l => (l, "STATE_CHANGED", s, some a))).countP
              (fun n => decide (n.1 = id)) = 0 := by
          rw [List.countP_eq_zero]
          intro x hx
          rw [List.mem_map] at hx
          obtain ⟨l, hl, rfl⟩ := hx
          have hne : l ≠ id := fun hcontra => hid (hcontra ▸ hl)
          simp [hne]
        rw [hz]
        exact Nat.add_zero _
      · have he2 : dt.enabled = false := by simpa using he
        rw [DTOp.apply, DevTools.record, if_pos he2]
        exact ⟨hid, rfl⟩
  | clearHistory => exact ⟨hid, rfl⟩
  | setMaxHistorySize n => exact ⟨hid, rfl⟩
  | setEnabled b => exact ⟨hid, rfl⟩
  | subscribe j =>
      have hj : j ≠ id := hop j rfl
      show id ∉ (dt.subscribe j).1.listeners
        ∧ notifCount (dt.subscribe j).1 id = notifCount dt id
      rw [DevTools.subscribe]
      by_cases he : dt.enabled = false
      · rw [if_pos he]
        exact ⟨hid, rfl⟩
      · rw [if_neg he]
        by_cases hm : j ∈ dt.listeners
        · rw [if_pos hm]
          exact ⟨hid, rfl⟩
        · rw [if_neg hm]
          refine ⟨?_, rfl⟩
          rw [List.mem_append]
          rintro (hin | hin)
          · exact hid hin
          · rw [List.mem_singleton] at hin
            exact hj hin.symm

theorem notif_runOps (ops : List DTOp) (dt : DevTools) (id : Nat)
    (hops : ∀ j, DTOp.subscribe j ∈ ops → j ≠ id)
    (hid : id ∉ dt.listeners) :
    id ∉ (runOps ops dt).listeners
    ∧ notifCount (runOps ops dt) id = notifCount dt id := by
  induction ops generalizing dt with
  | nil => exact ⟨hid, rfl⟩
  | cons op rest ih =>
      have h1 := notif_step op dt id
        (fun j hj => hops j (by rw [hj]; exact List.mem_cons_self _ _)) hid
      have h2 := ih (op.apply dt)
        (fun j hj => hops j (List.mem_cons_of_mem _ hj)) h1.1
      exact ⟨h2.1, h2.2.trans h1.2⟩

/-- Claim C9: while the recorder is disabled, `record` is a complete
no-op (histories, listeners and notification log all unchanged) and
`subscribe` returns the no-op unsubscribe without registering the
listener — so that listener is never notified by any later operation
sequence that does not re-subscribe it, even after re-enabling; disabling
never clears the histories, so the getters keep reporting them. -/
theorem disabled_recorder_noop (dt : DevTools) (a : Action) (s : State)
    (id : Nat) (ops : List DTOp)
    (hdis : dt.enabled = false)
    (hid : id ∉ dt.listeners)
    (hops : ∀ j, DTOp.subscribe j ∈ ops → j ≠ id) :
    dt.record a s = dt
    ∧ dt.subscribe id = (dt, Unsub.noop)
    ∧ (∀ d : DevTools, (d.setEnabled false).getStateHistory = d.getStateHistory
        ∧ (d.setEnabled false).getActionHistory = d.getActionHistory)
    ∧ notifCount (runOps ops ((dt.subscribe id).1)) id = notifCount dt id := by
  have hrec : dt.record a s = dt := by
    rw [DevTools.record, if_pos hdis]
  have hsub : dt.subscribe id = (dt, Unsub.noop) := by
    rw [DevTools.subscribe, if_pos hdis]
  refine ⟨hrec, hsub, fun d => ⟨rfl, rfl⟩, ?_⟩
  rw [hsub]
  exact (notif_runOps ops dt id hops hid).2

theorem disabled_recorder_noop_witness :
    (dt9.enabled = false)
    ∧ ((5 : Nat) ∉ dt9.listeners)
    ∧ (∀ j, DTOp.subscribe j ∈ ops9 → j ≠ 5)
    ∧ (dt9.record aPre [] = dt9
      ∧ dt9.subscribe 5 = (dt9, Unsub.noop)
      ∧ (∀ d : DevTools,
          (d.setEnabled false).getStateHistory = d.getStateHistory
          ∧ (d.setEnabled false).getActionHistory = d.getActionHistory)
      ∧ notifCount (runOps ops9 ((dt9.subscribe 5).1)) 5 = notifCount dt9 5) := by
  have hops : ∀ j, DTOp.subscribe j ∈ ops9 → j ≠ 5 := by
    intro j hj
    rcases List.mem_cons.mp hj with h | hj2
    · exact absurd h (by simp [DTOp.subscribe.injEq])
    · rcases List.mem_cons.mp hj2 with h | h
      · exact absurd h (by simp)
      · exact absurd h (by simp)
  exact ⟨rfl, by decide, hops,
    disabled_recorder_noop dt9 aPre [] 5 ops9 rfl (by decide) hops⟩

end Stately
